import Mathlib

/-!
Shallow embedding of the blog-dashboard repository core: the slug generator
and the paginated/filtered post query of src/lib/db.js, the post create and
update handlers, the comment deletion routine, and the auth handlers of
src/app/api/auth.  External store calls (a PostgREST style client) are
modelled by explicit finite tables plus reply values that mirror exactly
what the JavaScript code observes: a .single() query yields a data row when
precisely one row matches, and yields a null data field with an error set
when zero or several rows match or when the store call fails.
-/

namespace BlogDash

/-! Slug normalization, from src/lib/db.js lines 11-14:
    title.toLowerCase().replace(/[^a-z0-9]+/g, '-').replace(/^-+|-+$/g, '') -/

/-- Character class [a-z0-9] of the slug regular expression. -/
def isSlugChar (c : Char) : Bool :=
  (('a' ≤ c) && (c ≤ 'z')) || (('0' ≤ c) && (c ≤ '9'))

/-- Model of replace(/[^a-z0-9]+/g, '-'): every maximal run of characters
outside [a-z0-9] is collapsed to a single hyphen.  The Boolean state records
whether the scan is inside a run whose hyphen has already been emitted. -/
def collapseRunsAux : Bool → List Char → List Char
  | _, [] => []
  | inRun, c :: cs =>
    if isSlugChar c then c :: collapseRunsAux false cs
    else if inRun then collapseRunsAux true cs
    else '-' :: collapseRunsAux true cs

/-- Collapse of non-[a-z0-9] runs, starting outside any run. -/
def collapseRuns (l : List Char) : List Char :=
  collapseRunsAux false l

/-- Model of replace(/^-+|-+$/g, ''): drop every leading and trailing hyphen. -/
def trimHyphens (l : List Char) : List Char :=
  ((l.dropWhile (fun c => c == '-')).reverse.dropWhile (fun c => c == '-')).reverse

/-- Slug normalization of src/lib/db.js lines 11-14 (toLowerCase is modelled by
the per-character ASCII case mapping Char.toLower, which agrees with
JavaScript on the ASCII range relevant here). -/
def slugify (title : String) : String :=
  List.asString (trimHyphens (collapseRuns (title.data.map Char.toLower)))

/-! Store model for the slug probe. -/

/-- Row of the probed relation: the columns the probe selects and filters on. -/
structure SlugRow where
  id : String
  slug : String
  deriving DecidableEq

/-- Observable outcome of a .single() store query as seen by the JavaScript
caller: a data row (exactly one match), a null data field with the not-found
error set (zero or several matching rows), or a communication failure (error
set, data null). -/
inductive StoreReply (α : Type) where
  | found (row : α)
  | notFound
  | commError
  deriving DecidableEq

/-- Row filter of the probe in generateSlug: slug equality plus the optional
neq('id', excludeId) guard (src/lib/db.js lines 22-29). -/
def slugMatches (excludeId : Option String) (s : String) (r : SlugRow) : Bool :=
  r.slug == s &&
    (match excludeId with
     | some e => r.id != e
     | none => true)

/-- Store that faithfully executes the probe against a finite table: .single()
yields a data row exactly when precisely one row matches; with zero or with
several matching rows it yields an error and a null data field. -/
def honestProbe (table : List SlugRow) (excludeId : Option String) (s : String) :
    StoreReply SlugRow :=
  match table.filter (slugMatches excludeId s) with
  | [r] => StoreReply.found r
  | _ => StoreReply.notFound

/-- Test the code performs on the probe reply, src/lib/db.js line 33:
error || !data.  Both the not-found error and a communication error leave the
data field null, so both make the candidate count as free. -/
def isFreeReply : StoreReply SlugRow → Bool
  | StoreReply.found _ => false
  | _ => true

/-- Loop of generateSlug (src/lib/db.js lines 21-39) with explicit fuel in
place of the unbounded while loop; none models running out of fuel.  The
state is the current candidate slug and the counter, exactly as in the
source: on a collision the next candidate is baseSlug-counter and the
counter is incremented. -/
def generateSlugLoop (probe : String → StoreReply SlugRow) (baseSlug : String) :
    Nat → String → Nat → Option String
  | 0, _, _ => none
  | fuel + 1, slug, counter =>
    if isFreeReply (probe slug) then some slug
    else generateSlugLoop probe baseSlug fuel
      (baseSlug ++ "-" ++ Nat.repr counter) (counter + 1)

/-- Function generateSlug of src/lib/db.js lines 10-42: the candidate starts
at the normalized base and the counter at 1. -/
def generateSlug (probe : String → StoreReply SlugRow) (title : String)
    (fuel : Nat) : Option String :=
  generateSlugLoop probe (slugify title) fuel (slugify title) 1

/-- Candidate probed at iteration k: the base slug for k = 0, then base-1,
base-2, and so on. -/
def candidate (base : String) : Nat → String
  | 0 => base
  | k + 1 => base ++ "-" ++ Nat.repr (k + 1)

/-- Predicate: some row of the table other than the excluded one bears slug s. -/
def slugTaken (table : List SlugRow) (excludeId : Option String) (s : String) :
    Bool :=
  table.any (slugMatches excludeId s)

/-- Decimal value of a digit string; left inverse of Nat.toDigits 10, used to
show that the counter suffixes produced by Nat.repr are pairwise distinct. -/
def digitsVal (l : List Char) : Nat :=
  l.foldl (fun a c => 10 * a + (c.toNat - 48)) 0

/-! Posts and the paginated query of src/lib/db.js lines 49-118. -/

/-- Row of the posts relation: the columns getPaginatedPosts filters on. -/
structure Post where
  id : String
  author_id : String
  category_id : Option String
  title : String
  content : String
  excerpt : Option String
  status : String
  published_at : Option Nat
  deriving DecidableEq

/-- Containment of one character list in another, used to model the SQL
ilike '%pattern%' operator. -/
def listContains (needle : List Char) : List Char → Bool
  | [] => needle.isEmpty
  | c :: t => needle.isPrefixOf (c :: t) || listContains needle t

/-- Case-insensitive substring test: the semantics of col.ilike.%pat% for a
non-null column. -/
def ilikeContains (pat s : String) : Bool :=
  listContains (pat.data.map Char.toLower) (s.data.map Char.toLower)

/-- JavaScript truthiness of an optional string parameter: null, undefined
and the empty string are falsy. -/
def optTruthy : Option String → Bool
  | some s => s != ""
  | none => false

/-- Semantics of ilike against a nullable column: a null column never
matches. -/
def ilikeOpt (pat : String) : Option String → Bool
  | some s => ilikeContains pat s
  | none => false

/-- Search group of src/lib/db.js line 85: case-insensitive substring match
against title OR content OR excerpt. -/
def searchMatches (s : String) (p : Post) : Bool :=
  ilikeContains s p.title || ilikeContains s p.content || ilikeOpt s p.excerpt

/-- Row predicate of the query composed by getPaginatedPosts, src/lib/db.js
lines 64-86: an unconditional eq('status', status), eq filters on author_id
and on category_id guarded by JavaScript truthiness of the option, and the
optional three-column or-group of ilike matches. -/
def postMatches (status : String) (authorId categoryId search : Option String)
    (p : Post) : Bool :=
  p.status == status
  && (if optTruthy authorId then p.author_id == authorId.getD "" else true)
  && (if optTruthy categoryId then p.category_id == some (categoryId.getD "")
      else true)
  && (if optTruthy search then searchMatches (search.getD "") p else true)

/-- Order key of order('published_at', ascending: false): published_at
descending, a null published_at ordered before every timestamp (the store
default of nulls first under a descending order).  Ties are left to the
stable order of mergeSort, matching the unspecified store tie order. -/
def publishedDesc (a b : Post) : Bool :=
  match a.published_at, b.published_at with
  | none, _ => true
  | some _, none => false
  | some x, some y => decide (y ≤ x)

/-- Rows matching the composed filter of getPaginatedPosts. -/
def filterPosts (table : List Post) (status : String)
    (authorId categoryId search : Option String) : List Post :=
  table.filter (postMatches status authorId categoryId search)

/-- Stable insertion into a list ordered by publishedDesc. -/
def insertDesc (p : Post) : List Post → List Post
  | [] => [p]
  | q :: t => if publishedDesc p q then p :: q :: t else q :: insertDesc p t

/-- Ordered, filtered result set: a stable sort by publishedDesc, modelling
the store's order('published_at', ascending: false) with its unspecified
stable tie order. -/
def sortPosts : List Post → List Post
  | [] => []
  | p :: t => insertDesc p (sortPosts t)

/-- Store semantics of range(f, t): the inclusive row window [f, t] of the
ordered result set. -/
def rangeRows (f t : Nat) (l : List Post) : List Post :=
  (l.drop f).take (t + 1 - f)

/-- Outcome of the paginated read as the handler observes it: a data page
together with the exact total count, a store error reply, or a thrown
exception. -/
inductive ReadOutcome where
  | ok (posts : List Post) (count : Nat)
  | storeError
  | thrown
  deriving DecidableEq

/-- Result shape of getPaginatedPosts. -/
structure Paginated where
  posts : List Post
  total : Nat
  page : Nat
  pageSize : Nat
  totalPages : Nat
  deriving DecidableEq

/-- Ceiling division, the value of Math.ceil(a / b) on natural inputs. -/
def ceilNatDiv (a b : Nat) : Nat := (a + b - 1) / b

/-- Handler getPaginatedPosts of src/lib/db.js lines 49-118, parametrized by
the store: the handler computes the inclusive range bounds and shapes the
reply.  A store error reply (lines 90-99) and a thrown exception (lines
108-117) both collapse to the empty-result shape with the requested page and
pageSize echoed back. -/
def getPaginatedPosts (store : Nat → Nat → ReadOutcome) (page pageSize : Nat) :
    Paginated :=
  let f := (page - 1) * pageSize
  let t := f + pageSize - 1
  match store f t with
  | ReadOutcome.ok posts count =>
      { posts := posts, total := count, page := page, pageSize := pageSize,
        totalPages := ceilNatDiv count pageSize }
  | ReadOutcome.storeError =>
      { posts := [], total := 0, page := page, pageSize := pageSize,
        totalPages := 0 }
  | ReadOutcome.thrown =>
      { posts := [], total := 0, page := page, pageSize := pageSize,
        totalPages := 0 }

/-- Store that faithfully executes the composed query of getPaginatedPosts
against a finite table: filter, order, inclusive range window, and the exact
count over the full filtered set. -/
def honestPostStore (table : List Post) (status : String)
    (authorId categoryId search : Option String) (f t : Nat) : ReadOutcome :=
  ReadOutcome.ok
    (rangeRows f t (sortPosts (filterPosts table status authorId categoryId search)))
    (filterPosts table status authorId categoryId search).length

/-- Paginated query run against the honest store. -/
def getPaginatedPostsH (table : List Post) (page pageSize : Nat)
    (status : String) (authorId categoryId search : Option String) : Paginated :=
  getPaginatedPosts (honestPostStore table status authorId categoryId search)
    page pageSize

/-- Concrete published post used by the pagination and filter witnesses. -/
def samplePost (i : Nat) : Post :=
  { id := Nat.repr i, author_id := "a1", category_id := some "c1",
    title := "T" ++ Nat.repr i, content := "body", excerpt := none,
    status := "published", published_at := some i }

/-- Concrete table of 25 matching rows for the pagination witness. -/
def sampleTable : List Post :=
  (List.range 25).map samplePost

/-! Publication lifecycle of a post, from the create handler of
src/unnamed/part_000 lines 408-424 and the update handler of
src/unnamed/part_001 lines 200-206. -/

/-- Projection of a stored post onto the fields governed by the publication
invariant. -/
structure PostPub where
  status : String
  published_at : Option Nat
  deriving DecidableEq

/-- Creation by POST /api/posts: the stored status is status || 'draft', and
published_at is the creation time exactly when the supplied status is the
string published, else null. -/
def createPostState (status : Option String) (now : Nat) : PostPub :=
  { status :=
      match status with
      | some s => if s != "" then s else "draft"
      | none => "draft",
    published_at := if status == some "published" then some now else none }

/-- Update by PUT /api/posts/[slug]: when a status is supplied it is written,
and published_at is set to the update time exactly when the new status is
published and the existing status is not; otherwise published_at is left
untouched. -/
def updatePostState (p : PostPub) (status : Option String) (now : Nat) :
    PostPub :=
  match status with
  | none => p
  | some s =>
      { status := s,
        published_at :=
          if s == "published" && p.status != "published" then some now
          else p.published_at }

/-- Post states reachable through the create and update handlers. -/
inductive ReachablePost : PostPub → Prop where
  | create (status : Option String) (now : Nat) :
      ReachablePost (createPostState status now)
  | update (p : PostPub) (status : Option String) (now : Nat) :
      ReachablePost p → ReachablePost (updatePostState p status now)

/-! Comment deletion, src/lib/db.js lines 283-318. -/

/-- Row of the comments relation: the columns deleteComment reads. -/
structure CommentRow where
  id : String
  user_id : String
  deriving DecidableEq

/-- Function deleteComment of src/lib/db.js lines 283-318: fetch the comment
by id with .single(), return false when the fetch errs or finds nothing,
return false when the caller is neither admin nor the comment author
(without issuing the delete), else issue the delete; deleteOk tells whether
the store delete call succeeds.  The second component is the resulting
comments table. -/
def deleteComment (table : List CommentRow) (commentId userId userRole : String)
    (deleteOk : Bool) : Bool × List CommentRow :=
  match table.filter (fun c => c.id == commentId) with
  | [c] =>
      if userRole != "admin" && c.user_id != userId then (false, table)
      else if deleteOk then (true, table.filter (fun c => !(c.id == commentId)))
      else (false, table)
  | _ => (false, table)

/-! Validation module, src/lib/validation.js, and the auth handlers. -/

/-- Model of the anchored regular expression [^\s@]+@[^\s@]+\.[^\s@]+ of
isValidEmail (src/lib/validation.js lines 10-13): no whitespace anywhere,
exactly one at-sign, a nonempty local part before it, and a dot at an
interior position of the domain part after it (the character class allows
dots, so one interior dot somewhere suffices, matching backtracking). -/
def isValidEmail (email : String) : Bool :=
  let l := email.data
  let localPart := l.takeWhile (fun c => c != '@')
  let domain := (l.dropWhile (fun c => c != '@')).drop 1
  l.all (fun c => !c.isWhitespace) &&
    (l.filter (fun c => c == '@')).length == 1 &&
    !localPart.isEmpty &&
    (domain.drop 1).dropLast.contains '.'

/-- Function isValidPassword of src/lib/validation.js lines 20-28; some is
the error message, none is valid. -/
def isValidPassword (password : String) : Option String :=
  if password.length < 6 then some "Password must be at least 6 characters long"
  else none

/-- Whitespace trim of name.trim(), on the character list. -/
def trimChars (l : List Char) : List Char :=
  ((l.dropWhile Char.isWhitespace).reverse.dropWhile Char.isWhitespace).reverse

/-- Function validateRegistration of src/lib/validation.js lines 35-61.  The
role check fires only for a truthy role value: an absent or empty-string
role is accepted. -/
def validateRegistration (name email password : String) (role : Option String) :
    Option String :=
  if (trimChars name.data).isEmpty then some "Name is required"
  else if 100 < name.length then some "Name must be less than 100 characters"
  else if !isValidEmail email then some "Valid email is required"
  else
    match isValidPassword password with
    | some e => some e
    | none =>
        if optTruthy role &&
            !(["admin", "author", "reader"].contains (role.getD "")) then
          some "Invalid role specified"
        else none

/-- Function validateLogin of src/lib/validation.js lines 68-80. -/
def validateLogin (email password : String) : Option String :=
  if !isValidEmail email then some "Valid email is required"
  else if password == "" then some "Password is required"
  else none

/-- Row of the users relation: the columns the auth handlers use. -/
structure UserRow where
  id : String
  name : String
  email : String
  password : String
  role : String
  deriving DecidableEq

/-- User record with the password field stripped, as the auth handlers
return it. -/
structure PublicUser where
  id : String
  name : String
  email : String
  role : String
  deriving DecidableEq

/-- Password stripping of the login and register replies. -/
def stripPassword (u : UserRow) : PublicUser :=
  { id := u.id, name := u.name, email := u.email, role := u.role }

/-- Body of an HTTP JSON reply from the login handler. -/
inductive AuthBody where
  | failure (error : String)
  | success (user : PublicUser) (token : String)
  deriving DecidableEq

/-- HTTP reply: status code plus JSON body. -/
structure HttpReply where
  status : Nat
  body : AuthBody
  deriving DecidableEq

/-- Handler POST /api/auth/login (src/app/api/auth/login/route.js lines
36-104), parametrized by the bcrypt comparison and the token generator,
which are external libraries; lookup is the .single() fetch of the user row
by email.  The no-user branch (lines 61-66) and the wrong-password branch
(lines 71-76) build their replies independently. -/
def loginPOST (bc : String → String → Bool)
    (tok : String → String → String → String) (email password : String)
    (lookup : StoreReply UserRow) : HttpReply :=
  match validateLogin email password with
  | some e => { status := 400, body := AuthBody.failure e }
  | none =>
      match lookup with
      | StoreReply.found u =>
          if bc password u.password then
            { status := 200,
              body := AuthBody.success (stripPassword u) (tok u.id u.email u.role) }
          else { status := 401, body := AuthBody.failure "Invalid email or password" }
      | _ => { status := 401, body := AuthBody.failure "Invalid email or password" }

/-- Row inserted by the registration handler (the id and the timestamps are
supplied by the store; the avatar is derived from the email). -/
structure InsertedUser where
  name : String
  email : String
  password : String
  role : String
  avatar_url : String
  deriving DecidableEq

/-- Reply of POST /api/auth/register; a created reply carries the inserted
row. -/
inductive RegisterReply where
  | created (user : InsertedUser)
  | badRequest (error : String)
  | serverError
  deriving DecidableEq

/-- Handler POST /api/auth/register (src/app/api/auth/register/route.js
lines 43-130): validate, reject a duplicate email with 400, hash the
password (an external library passed as a parameter) and insert the user
with role role || 'reader'; a failed insert is a 500. -/
def registerPOST (hash : String → String) (emailTaken insertOk : Bool)
    (name email password : String) (role : Option String) : RegisterReply :=
  match validateRegistration name email password role with
  | some e => RegisterReply.badRequest e
  | none =>
      if emailTaken then
        RegisterReply.badRequest "User with this email already exists"
      else if insertOk then
        RegisterReply.created
          { name := name, email := email, password := hash password,
            role := if optTruthy role then role.getD "" else "reader",
            avatar_url := "https://api.dicebear.com/7.x/avataaars/svg?seed=" ++ email }
      else RegisterReply.serverError

end BlogDash

namespace BlogDash

theorem toDigitsCore_shift (fuel : Nat) : ∀ (n : Nat) (ds : List Char),
    Nat.toDigitsCore 10 fuel n ds = Nat.toDigitsCore 10 fuel n [] ++ ds := by
  induction fuel with
  | zero => intro n ds; simp [Nat.toDigitsCore]
  | succ fuel ih =>
    intro n ds
    simp only [Nat.toDigitsCore]
    by_cases h : n / 10 = 0
    · simp [h]
    · simp only [if_neg h]
      rw [ih (n / 10) (Nat.digitChar (n % 10) :: ds),
        ih (n / 10) [Nat.digitChar (n % 10)]]
      simp

theorem digitChar_toNat (d : Nat) (h : d < 10) :
    (Nat.digitChar d).toNat - 48 = d := by
  interval_cases d <;> rfl

theorem digitsVal_append_digit (xs : List Char) (c : Char) :
    digitsVal (xs ++ [c]) = 10 * digitsVal xs + (c.toNat - 48) := by
  simp [digitsVal, List.foldl_append]

theorem digitsVal_toDigitsCore (fuel : Nat) : ∀ n : Nat, n < fuel →
    digitsVal (Nat.toDigitsCore 10 fuel n []) = n := by
  induction fuel with
  | zero => intro n h; omega
  | succ fuel ih =>
    intro n h
    simp only [Nat.toDigitsCore]
    by_cases h0 : n / 10 = 0
    · have h10 : n < 10 := by
        rcases Nat.lt_or_ge n 10 with h1 | h1
        · exact h1
        · exfalso
          have h2 : 1 ≤ n / 10 := (Nat.one_le_div_iff (by omega)).mpr h1
          omega
      have hmod : n % 10 = n := Nat.mod_eq_of_lt h10
      simp only [if_pos h0, hmod, digitsVal, List.foldl]
      have := digitChar_toNat n h10
      omega
    · simp only [if_neg h0]
      rw [toDigitsCore_shift, digitsVal_append_digit]
      have hpos : 0 < n := by
        rcases Nat.eq_zero_or_pos n with rfl | hp
        · simp at h0
        · exact hp
      have hlt : n / 10 < fuel := by
        have hdn : n / 10 < n := Nat.div_lt_self hpos (by omega)
        omega
      rw [ih _ hlt, digitChar_toNat (n % 10) (Nat.mod_lt n (by omega))]
      have := Nat.div_add_mod n 10
      omega

theorem digitsVal_toDigits (n : Nat) : digitsVal (Nat.toDigits 10 n) = n :=
  digitsVal_toDigitsCore (n + 1) n (Nat.lt_succ_self n)

theorem repr_injective : Function.Injective Nat.repr := by
  intro m n h
  have hdig : Nat.toDigits 10 m = Nat.toDigits 10 n := by
    have hd := congrArg String.data h
    simpa [Nat.repr, List.asString] using hd
  have := congrArg digitsVal hdig
  simpa [digitsVal_toDigits] using this

theorem toDigits_ne_nil (n : Nat) : Nat.toDigits 10 n ≠ [] := by
  show Nat.toDigitsCore 10 (n + 1) n [] ≠ []
  simp only [Nat.toDigitsCore]
  by_cases h : n / 10 = 0
  · simp [h]
  · simp only [if_neg h]
    rw [toDigitsCore_shift]
    simp

theorem candidate_injective (base : String) :
    Function.Injective (candidate base) := by
  have hlen : ∀ k : Nat, (candidate base (k + 1)).data.length =
      base.data.length + 1 + (Nat.repr (k + 1)).data.length := by
    intro k
    simp [candidate, String.data_append]
    omega
  have hne : ∀ k : Nat, (Nat.repr (k + 1)).data ≠ [] := by
    intro k
    simpa [Nat.repr, List.asString] using toDigits_ne_nil (k + 1)
  intro j k h
  match j, k with
  | 0, 0 => rfl
  | 0, k + 1 =>
    exfalso
    have h1 := congrArg (fun s => s.data.length) h
    have h2 := hlen k
    have h3 := hne k
    simp only [candidate] at h1 h2
    have : (Nat.repr (k + 1)).data.length ≠ 0 := by
      intro hc
      exact h3 (List.eq_nil_of_length_eq_zero hc)
    omega
  | j + 1, 0 =>
    exfalso
    have h1 := congrArg (fun s => s.data.length) h
    have h2 := hlen j
    have h3 := hne j
    simp only [candidate] at h1 h2
    have : (Nat.repr (j + 1)).data.length ≠ 0 := by
      intro hc
      exact h3 (List.eq_nil_of_length_eq_zero hc)
    omega
  | j + 1, k + 1 =>
    have hd := congrArg String.data h
    simp only [candidate, String.data_append] at hd
    have hd2 : (Nat.repr (j + 1)).data = (Nat.repr (k + 1)).data := by
      simpa using hd
    have hr : Nat.repr (j + 1) = Nat.repr (k + 1) := String.ext hd2
    have := repr_injective hr
    omega

theorem honestProbe_isFree (table : List SlugRow) (excludeId : Option String)
    (s : String)
    (hgood : (table.filter (slugMatches excludeId s)).length ≤ 1) :
    isFreeReply (honestProbe table excludeId s) =
      !(slugTaken table excludeId s) := by
  rcases hf : table.filter (slugMatches excludeId s) with _ | ⟨r, tl⟩
  · have hany : slugTaken table excludeId s = false := by
      rw [slugTaken, List.any_eq_false]
      intro x hx hpx
      have hm : x ∈ table.filter (slugMatches excludeId s) :=
        List.mem_filter.mpr ⟨hx, hpx⟩
      rw [hf] at hm
      exact absurd hm (List.not_mem_nil x)
    simp only [honestProbe, hf, hany, isFreeReply, Bool.not_false]
  · have htl : tl = [] := by
      rw [hf] at hgood
      simp only [List.length_cons] at hgood
      exact List.eq_nil_of_length_eq_zero (by omega)
    subst htl
    have hr : r ∈ table.filter (slugMatches excludeId s) := by
      rw [hf]; exact List.mem_cons_self r []
    have hmem := List.mem_filter.mp hr
    have hany : slugTaken table excludeId s = true := by
      rw [slugTaken, List.any_eq_true]
      exact ⟨r, hmem.1, hmem.2⟩
    simp only [honestProbe, hf, hany, isFreeReply, Bool.not_true]

theorem generateSlugLoop_reaches (probe : String → StoreReply SlugRow)
    (base : String) : ∀ (fuel k i : Nat), k < fuel →
    (∀ j, j < k → isFreeReply (probe (candidate base (i + j))) = false) →
    isFreeReply (probe (candidate base (i + k))) = true →
    generateSlugLoop probe base fuel (candidate base i) (i + 1) =
      some (candidate base (i + k)) := by
  intro fuel
  induction fuel with
  | zero => intro k i hk; omega
  | succ fuel ih =>
    intro k i hk hocc hfree
    match k with
    | 0 =>
      have h0 : isFreeReply (probe (candidate base i)) = true := by
        simpa using hfree
      simp only [generateSlugLoop, h0, if_true]
      rfl
    | k + 1 =>
      have h0 : isFreeReply (probe (candidate base i)) = false := by
        simpa using hocc 0 (by omega)
      simp only [generateSlugLoop, h0, Bool.false_eq_true, if_false]
      have hc : base ++ "-" ++ Nat.repr (i + 1) = candidate base (i + 1) := rfl
      rw [hc]
      have hres := ih k (i + 1) (by omega)
        (fun j hj => by
          have hh := hocc (j + 1) (by omega)
          have he : i + (j + 1) = i + 1 + j := by omega
          rwa [he] at hh)
        (by
          have he : i + (k + 1) = i + 1 + k := by omega
          rwa [he] at hfree)
      have he2 : i + 1 + k = i + (k + 1) := by omega
      rwa [he2] at hres

theorem exists_free_le (table : List SlugRow) (excludeId : Option String)
    (base : String) :
    ∃ k, k ≤ table.length ∧
      slugTaken table excludeId (candidate base k) = false := by
  by_contra hc
  push_neg at hc
  have htaken : ∀ k : Nat, k ≤ table.length →
      slugTaken table excludeId (candidate base k) = true := by
    intro k hk
    have hne := hc k hk
    cases hb : slugTaken table excludeId (candidate base k)
    · exact absurd hb hne
    · rfl
  have hrow : ∀ k : Fin (table.length + 1),
      ∃ r, r ∈ table ∧ slugMatches excludeId (candidate base k.val) r = true := by
    intro k
    have := htaken k.val (by omega)
    rw [slugTaken, List.any_eq_true] at this
    exact this
  classical
  choose g hg_mem hg_match using hrow
  have hmaps : ∀ k ∈ (Finset.univ : Finset (Fin (table.length + 1))),
      g k ∈ table.toFinset := by
    intro k _
    exact List.mem_toFinset.mpr (hg_mem k)
  have hinj : Set.InjOn g (Finset.univ : Finset (Fin (table.length + 1))) := by
    intro a _ b _ hab
    have ha := hg_match a
    have hb := hg_match b
    rw [hab] at ha
    have hsa : (g b).slug = candidate base a.val := by
      have := (Bool.and_eq_true _ _).mp ha
      exact beq_iff_eq.mp this.1
    have hsb : (g b).slug = candidate base b.val := by
      have := (Bool.and_eq_true _ _).mp hb
      exact beq_iff_eq.mp this.1
    have : candidate base a.val = candidate base b.val := by
      rw [← hsa, hsb]
    have := candidate_injective base this
    exact Fin.ext this
  have hcard := Finset.card_le_card_of_injOn g hmaps hinj
  have h1 : (Finset.univ : Finset (Fin (table.length + 1))).card =
      table.length + 1 := by
    simp
  have h2 := List.toFinset_card_le table
  omega

/-- C1 (amended): against a store in which each slug is borne by at most one
row other than the excluded one, generateSlug terminates within
table.length + 1 probes and returns the first candidate of the sequence
base, base-1, base-2, ... not borne by any non-excluded row; every earlier
candidate is taken, so the retry suffixes are tried strictly in the order
-1, -2, -3, and the result never collides with a stored slug.  The original
claim fails when two rows already bear the probed slug: .single() then
errs, the code conflates that error with not-found, and the taken slug is
returned (see the counterexample). -/
theorem generateSlug_terminates_unique (table : List SlugRow)
    (excludeId : Option String) (title : String)
    (hgood : ∀ s, (table.filter (slugMatches excludeId s)).length ≤ 1) :
    ∃ k, generateSlug (honestProbe table excludeId) title (table.length + 1) =
        some (candidate (slugify title) k) ∧
      slugTaken table excludeId (candidate (slugify title) k) = false ∧
      ∀ j, j < k →
        slugTaken table excludeId (candidate (slugify title) j) = true := by
  classical
  obtain ⟨k0, hk0le, hk0free⟩ := exists_free_le table excludeId (slugify title)
  have hex : ∃ k, slugTaken table excludeId (candidate (slugify title) k) = false :=
    ⟨k0, hk0free⟩
  refine ⟨Nat.find hex, ?_, Nat.find_spec hex, fun j hj => ?_⟩
  · have hkle : Nat.find hex ≤ k0 := Nat.find_min' hex hk0free
    have hloop := generateSlugLoop_reaches (honestProbe table excludeId)
      (slugify title) (table.length + 1) (Nat.find hex) 0 (by omega)
      (fun j hj => by
        rw [honestProbe_isFree table excludeId _ (hgood _)]
        have hne := Nat.find_min hex (show 0 + j < Nat.find hex by omega)
        cases hb : slugTaken table excludeId (candidate (slugify title) (0 + j))
        · exact absurd hb hne
        · rfl)
      (by
        rw [honestProbe_isFree table excludeId _ (hgood _)]
        have : (0 : Nat) + Nat.find hex = Nat.find hex := by omega
        rw [this, Nat.find_spec hex]
        rfl)
    have hz : (0 : Nat) + Nat.find hex = Nat.find hex := by omega
    rw [hz] at hloop
    exact hloop
  · have hne := Nat.find_min hex hj
    cases hb : slugTaken table excludeId (candidate (slugify title) j)
    · exact absurd hb hne
    · rfl

/-- Witness for C1's amended theorem: against the one-row store already
holding my-title, the call returns some candidate (in fact my-title-1)
free in the store, with every earlier candidate taken. -/
theorem generateSlug_terminates_unique_witness :
    (∀ s, (([⟨"1", "my-title"⟩] : List SlugRow).filter
        (slugMatches none s)).length ≤ 1) ∧
    ∃ k, generateSlug (honestProbe [⟨"1", "my-title"⟩] none) "My Title"
          (([⟨"1", "my-title"⟩] : List SlugRow).length + 1) =
        some (candidate (slugify "My Title") k) ∧
      slugTaken [⟨"1", "my-title"⟩] none (candidate (slugify "My Title") k) =
        false ∧
      ∀ j, j < k →
        slugTaken [⟨"1", "my-title"⟩] none (candidate (slugify "My Title") j) =
          true := by
  have hg : ∀ s, (([⟨"1", "my-title"⟩] : List SlugRow).filter
      (slugMatches none s)).length ≤ 1 :=
    fun s => List.length_filter_le _ _
  exact ⟨hg, generateSlug_terminates_unique [⟨"1", "my-title"⟩] none "My Title" hg⟩

/-- C1 counterexample: with two rows already bearing the base slug, the
.single() probe errs, the error is read as slug-free, and the already-taken
slug my-title is returned; so the claim's guarantee fails on a store state
it quantifies over, and on such a store a repeated call returns the same
slug again rather than a fresh one. -/
theorem generateSlug_duplicate_counterexample :
    generateSlug (honestProbe [⟨"1", "my-title"⟩, ⟨"2", "my-title"⟩] none)
        "My Title" 3 = some "my-title" ∧
    slugTaken [⟨"1", "my-title"⟩, ⟨"2", "my-title"⟩] none "my-title" = true := by
  decide

/-- C2 (amended): generateSlug conflates query failure with row-not-found:
a store communication error while probing a candidate is treated as the
slug being free, and the candidate is returned as unique on the spot. -/
theorem generateSlug_error_treated_as_free (probe : String → StoreReply SlugRow)
    (title : String) (fuel : Nat)
    (h : probe (slugify title) = StoreReply.commError) :
    generateSlug probe title (fuel + 1) = some (slugify title) := by
  simp only [generateSlug, generateSlugLoop, h, isFreeReply, if_true]

/-- Witness for C2's amended theorem: a store failing on every probe. -/
theorem generateSlug_error_treated_as_free_witness :
    ((fun _ : String => (StoreReply.commError : StoreReply SlugRow))
        (slugify "My Title") = StoreReply.commError) ∧
    generateSlug (fun _ => StoreReply.commError) "My Title" 1 =
      some (slugify "My Title") :=
  ⟨rfl, generateSlug_error_treated_as_free _ "My Title" 0 rfl⟩

/-- C2 counterexample: the claim says a store communication error is never
treated as the slug being free; but with a store whose probe fails, the
first candidate is returned as unique immediately. -/
theorem generateSlug_commError_counterexample :
    generateSlug (fun _ => StoreReply.commError) "My Title" 1 =
      some "my-title" := by
  decide

/-- C9: when no non-excluded row of the table bears the normalized base
slug, generateSlug returns exactly the base, which is the title lowercased
with every run of characters outside [a-z0-9] collapsed to a single hyphen
and leading/trailing hyphens trimmed (the definition of slugify); the
witness instantiates the empty table and computes
generateSlug("My Title") = "my-title". -/
theorem generateSlug_returns_base_when_free (table : List SlugRow)
    (excludeId : Option String) (title : String) (fuel : Nat)
    (h : slugTaken table excludeId (slugify title) = false) :
    generateSlug (honestProbe table excludeId) title (fuel + 1) =
      some (slugify title) := by
  have hfil : table.filter (slugMatches excludeId (slugify title)) = [] := by
    rw [List.filter_eq_nil_iff]
    rw [slugTaken, List.any_eq_false] at h
    exact h
  simp only [generateSlug, generateSlugLoop, honestProbe, hfil, isFreeReply,
    if_true]

/-- Witness for C9 at the empty table: the slug of My Title is my-title. -/
theorem generateSlug_returns_base_when_free_witness :
    slugTaken [] none (slugify "My Title") = false ∧
    generateSlug (honestProbe [] none) "My Title" 1 = some "my-title" := by
  refine ⟨by decide, ?_⟩
  have h := generateSlug_returns_base_when_free [] none "My Title" 0 (by decide)
  rw [h]
  decide

theorem length_insertDesc (p : Post) (l : List Post) :
    (insertDesc p l).length = l.length + 1 := by
  induction l with
  | nil => rfl
  | cons q t ih =>
    simp only [insertDesc]
    split
    · simp
    · simp [ih]

theorem length_sortPosts (l : List Post) :
    (sortPosts l).length = l.length := by
  induction l with
  | nil => rfl
  | cons p t ih => simp [sortPosts, length_insertDesc, ih]

theorem mem_insertDesc (x p : Post) (l : List Post) :
    x ∈ insertDesc p l ↔ x = p ∨ x ∈ l := by
  induction l with
  | nil => simp [insertDesc]
  | cons q t ih =>
    simp only [insertDesc]
    split
    · simp [List.mem_cons]
    · simp only [List.mem_cons, ih]
      tauto

theorem mem_sortPosts (x : Post) (l : List Post) :
    x ∈ sortPosts l ↔ x ∈ l := by
  induction l with
  | nil => simp [sortPosts]
  | cons p t ih => simp [sortPosts, mem_insertDesc, ih, List.mem_cons]

theorem ceilNatDiv_spec (a b : Nat) (hb : 1 ≤ b) :
    a ≤ ceilNatDiv a b * b ∧ ceilNatDiv a b * b < a + b := by
  unfold ceilNatDiv
  rw [Nat.mul_comm]
  have h1 := Nat.div_add_mod (a + b - 1) b
  have h2 : (a + b - 1) % b < b := Nat.mod_lt _ (by omega)
  omega

/-- C3: for every table and every page, pageSize at least 1, the honest-store
paginated query returns exactly the half-open row window
[(page-1)*pageSize, page*pageSize) of the filtered, ordered result set, the
exact total count over the full filtered set, the echoed page and pageSize,
and a totalPages that is the ceiling of total / pageSize (characterized by
the two inequalities); the witness instantiates 25 matching rows with
page 2 and pageSize 10 and computes 10 posts, total 25, totalPages 3. -/
theorem getPaginatedPosts_pagination (table : List Post) (page pageSize : Nat)
    (status : String) (authorId categoryId search : Option String)
    (_hpage : 1 ≤ page) (hsize : 1 ≤ pageSize) :
    (getPaginatedPostsH table page pageSize status authorId categoryId
        search).posts =
      ((sortPosts (filterPosts table status authorId categoryId search)).drop
        ((page - 1) * pageSize)).take pageSize ∧
    (getPaginatedPostsH table page pageSize status authorId categoryId
        search).total =
      (filterPosts table status authorId categoryId search).length ∧
    (getPaginatedPostsH table page pageSize status authorId categoryId
        search).page = page ∧
    (getPaginatedPostsH table page pageSize status authorId categoryId
        search).pageSize = pageSize ∧
    (getPaginatedPostsH table page pageSize status authorId categoryId
        search).total ≤
      (getPaginatedPostsH table page pageSize status authorId categoryId
        search).totalPages * pageSize ∧
    (getPaginatedPostsH table page pageSize status authorId categoryId
        search).totalPages * pageSize <
      (getPaginatedPostsH table page pageSize status authorId categoryId
        search).total + pageSize := by
  have hcnt : (page - 1) * pageSize + pageSize - 1 + 1 - (page - 1) * pageSize =
      pageSize := by omega
  have hspec := ceilNatDiv_spec
    (filterPosts table status authorId categoryId search).length pageSize hsize
  simp only [getPaginatedPostsH, getPaginatedPosts, honestPostStore, rangeRows]
  exact ⟨by rw [hcnt], trivial, trivial, trivial, hspec.1, hspec.2⟩

/-- Witness for C3: 25 matching rows, page 2, pageSize 10. -/
theorem getPaginatedPosts_pagination_witness :
    (1 : Nat) ≤ 2 ∧ (1 : Nat) ≤ 10 ∧
    (getPaginatedPostsH sampleTable 2 10 "published" none none
      none).posts.length = 10 ∧
    (getPaginatedPostsH sampleTable 2 10 "published" none none none).total =
      25 ∧
    (getPaginatedPostsH sampleTable 2 10 "published" none none
      none).totalPages = 3 := by
  have h := getPaginatedPosts_pagination sampleTable 2 10 "published" none none
    none (by decide) (by decide)
  refine ⟨by decide, by decide, ?_, ?_, ?_⟩
  · rw [h.1]
    decide
  · rw [h.2.1]
    decide
  · decide

/-- C5: on any store failure, whether an error reply or a thrown exception,
getPaginatedPosts returns the empty-result shape with the requested page and
pageSize echoed back, never propagating the error; and this reply is
identical to the success reply over an empty table, so the caller cannot
distinguish no-results from query-failed. -/
theorem getPaginatedPosts_store_failure (page pageSize : Nat)
    (status : String) (authorId categoryId search : Option String) :
    getPaginatedPosts (fun _ _ => ReadOutcome.storeError) page pageSize =
      { posts := [], total := 0, page := page, pageSize := pageSize,
        totalPages := 0 } ∧
    getPaginatedPosts (fun _ _ => ReadOutcome.thrown) page pageSize =
      { posts := [], total := 0, page := page, pageSize := pageSize,
        totalPages := 0 } ∧
    getPaginatedPosts (fun _ _ => ReadOutcome.storeError) page pageSize =
      getPaginatedPostsH [] page pageSize status authorId categoryId search := by
  refine ⟨rfl, rfl, ?_⟩
  have hz : ceilNatDiv 0 pageSize = 0 := by
    unfold ceilNatDiv
    rcases pageSize with _ | n
    · rfl
    · exact Nat.div_eq_of_lt (by omega)
  simp [getPaginatedPostsH, getPaginatedPosts, honestPostStore, rangeRows,
    filterPosts, sortPosts, hz]

theorem listContains_nil (hay : List Char) : listContains [] hay = true := by
  cases hay with
  | nil => rfl
  | cons c t => simp [listContains, List.isPrefixOf]

theorem searchMatches_empty (p : Post) : searchMatches "" p = true := by
  have h : ilikeContains "" p.title = true := by
    simp [ilikeContains, listContains_nil]
  simp [searchMatches, h]

/-- C6 (amended): every post returned by the honest-store paginated query
matches the requested status exactly, matches a supplied non-empty authorId
and categoryId, and contains a supplied search string as a case-insensitive
substring of title OR content OR excerpt.  An authorId or categoryId
supplied as the empty string is falsy in JavaScript, so its eq filter is
skipped and the guarantee fails for it (see the counterexample); the empty
search string is likewise skipped, but it is vacuously a substring, so the
search guarantee needs no restriction. -/
theorem getPaginatedPosts_filters_sound (table : List Post)
    (page pageSize : Nat) (status : String)
    (authorId categoryId search : Option String) (p : Post)
    (hp : p ∈ (getPaginatedPostsH table page pageSize status authorId
      categoryId search).posts) :
    p.status = status ∧
    (∀ a, authorId = some a → a ≠ "" → p.author_id = a) ∧
    (∀ c, categoryId = some c → c ≠ "" → p.category_id = some c) ∧
    (∀ s, search = some s → searchMatches s p = true) := by
  have hmem : p ∈ filterPosts table status authorId categoryId search := by
    have h1 : p ∈ sortPosts (filterPosts table status authorId categoryId
        search) := by
      simp only [getPaginatedPostsH, getPaginatedPosts, honestPostStore,
        rangeRows] at hp
      exact List.mem_of_mem_drop (List.mem_of_mem_take hp)
    exact (mem_sortPosts p _).mp h1
  have hmatch := (List.mem_filter.mp hmem).2
  rw [postMatches] at hmatch
  have hsplit := (Bool.and_eq_true _ _).mp hmatch
  have hsplit2 := (Bool.and_eq_true _ _).mp hsplit.1
  have hsplit3 := (Bool.and_eq_true _ _).mp hsplit2.1
  have hstatus : p.status = status := beq_iff_eq.mp hsplit3.1
  refine ⟨hstatus, ?_, ?_, ?_⟩
  · intro a ha hane
    rw [ha] at hsplit3
    have htr : optTruthy (some a) = true := by
      simp [optTruthy, hane]
    rw [htr] at hsplit3
    have := hsplit3.2
    simp only [if_true, Option.getD] at this
    exact beq_iff_eq.mp this
  · intro c hcx hcne
    rw [hcx] at hsplit2
    have htr : optTruthy (some c) = true := by
      simp [optTruthy, hcne]
    rw [htr] at hsplit2
    have := hsplit2.2
    simp only [if_true, Option.getD] at this
    exact beq_iff_eq.mp this
  · intro s hs
    by_cases hse : s = ""
    · rw [hse]
      exact searchMatches_empty p
    · rw [hs] at hsplit
      have htr : optTruthy (some s) = true := by
        simp [optTruthy, hse]
      rw [htr] at hsplit
      have := hsplit.2
      simpa only [if_true, Option.getD] using this

/-- Witness for C6's amended theorem at a one-row table with every filter
supplied. -/
theorem getPaginatedPosts_filters_sound_witness :
    samplePost 0 ∈ (getPaginatedPostsH [samplePost 0] 1 10 "published"
      (some "a1") (some "c1") (some "T")).posts ∧
    ((samplePost 0).status = "published" ∧
     (∀ a, (some "a1" : Option String) = some a → a ≠ "" →
        (samplePost 0).author_id = a) ∧
     (∀ c, (some "c1" : Option String) = some c → c ≠ "" →
        (samplePost 0).category_id = some c) ∧
     (∀ s, (some "T" : Option String) = some s →
        searchMatches s (samplePost 0) = true)) :=
  ⟨by decide, getPaginatedPosts_filters_sound [samplePost 0] 1 10 "published"
    (some "a1") (some "c1") (some "T") (samplePost 0) (by decide)⟩

/-- C6 counterexample: with authorId supplied as the empty string the author
filter is skipped (JavaScript truthiness of the empty string), and a post
whose author_id differs from the supplied authorId is returned. -/
theorem getPaginatedPosts_filters_counterexample :
    samplePost 0 ∈ (getPaginatedPostsH [samplePost 0] 1 10 "published"
      (some "") none none).posts ∧
    (samplePost 0).author_id ≠ "" := by
  decide

/-- C4 (amended): on every reachable post state, a published status implies
a non-null published_at; updating a non-published post to published stamps
published_at with the update time; and any update of an already-published
post leaves published_at unchanged.  The claimed iff and the claimed
written-exactly-once fail: an update may set status back to draft without
clearing published_at, and a later re-publication rewrites published_at
(see the counterexample). -/
theorem published_at_invariant (st : PostPub) (h : ReachablePost st) :
    (st.status = "published" → st.published_at ≠ none) ∧
    (∀ now, st.status ≠ "published" →
      (updatePostState st (some "published") now).published_at = some now) ∧
    (∀ s now, st.status = "published" →
      (updatePostState st s now).published_at = st.published_at) := by
  refine ⟨?_, ?_, ?_⟩
  · induction h with
    | create status now =>
      intro hs
      rcases status with _ | s
      · simp [createPostState] at hs
      · simp only [createPostState] at hs ⊢
        by_cases he : s = ""
        · rw [he] at hs
          simp at hs
        · have hsval : s = "published" := by
            have : (s != "") = true := by simp [he]
            rw [this] at hs
            simpa using hs
          rw [hsval]
          simp
    | update p status now hp ih =>
      intro hs
      rcases status with _ | s
      · exact ih hs
      · simp only [updatePostState] at hs ⊢
        by_cases hpub : p.status = "published"
        · have hcond : (s == "published" && p.status != "published") = false := by
            simp [hpub]
          rw [hcond]
          simp only [Bool.false_eq_true, if_false]
          exact ih hpub
        · have hcond : (s == "published" && p.status != "published") = true := by
            simp [hpub, hs]
          rw [hcond]
          simp
  · intro now hs
    simp only [updatePostState]
    have hcond : ("published" == "published" && st.status != "published") = true := by
      simp [hs]
    rw [hcond]
    simp
  · intro s now hs
    rcases s with _ | s
    · simp [updatePostState]
    · simp only [updatePostState]
      have hcond : (s == "published" && st.status != "published") = false := by
        simp [hs]
      rw [hcond]
      simp

/-- Witness for C4's amended theorem at the state created directly in the
published status. -/
theorem published_at_invariant_witness :
    ReachablePost (createPostState (some "published") 3) ∧
    (((createPostState (some "published") 3).status = "published" →
        (createPostState (some "published") 3).published_at ≠ none) ∧
     (∀ now, (createPostState (some "published") 3).status ≠ "published" →
        (updatePostState (createPostState (some "published") 3)
          (some "published") now).published_at = some now) ∧
     (∀ s now, (createPostState (some "published") 3).status = "published" →
        (updatePostState (createPostState (some "published") 3)
          s now).published_at =
          (createPostState (some "published") 3).published_at)) :=
  ⟨ReachablePost.create _ _,
    published_at_invariant _ (ReachablePost.create (some "published") 3)⟩

/-- C4 counterexample: create a published post at time 5, then set its
status back to draft at time 7.  The state is reachable, its status is
draft, yet published_at is still set, refuting the claimed iff; and
re-publishing at time 9 rewrites published_at from 5 to 9, refuting
written-exactly-once. -/
theorem published_at_counterexample :
    ReachablePost (updatePostState (createPostState (some "published") 5)
      (some "draft") 7) ∧
    (updatePostState (createPostState (some "published") 5)
      (some "draft") 7).status ≠ "published" ∧
    (updatePostState (createPostState (some "published") 5)
      (some "draft") 7).published_at = some 5 ∧
    (updatePostState (updatePostState (createPostState (some "published") 5)
      (some "draft") 7) (some "published") 9).published_at = some 9 :=
  ⟨ReachablePost.update _ _ _ (ReachablePost.create _ _),
    by decide, by decide, by decide⟩

/-- C7: deleteComment returns true for an admin regardless of ownership when
the comment exists and the store delete succeeds; it returns false and
leaves the table untouched when the caller is neither admin nor the owner;
and it returns false with the table untouched when no comment has the id.
Both failure cases surface as the bare boolean false, so not-found and
not-authorized are indistinguishable to the caller. -/
theorem deleteComment_authorization (table : List CommentRow)
    (commentId userId userRole : String) (c : CommentRow)
    (hfind : table.filter (fun x => x.id == commentId) = [c]) :
    (userRole = "admin" →
      (deleteComment table commentId userId userRole true).fst = true) ∧
    (userRole ≠ "admin" → c.user_id ≠ userId → ∀ delOk,
      deleteComment table commentId userId userRole delOk = (false, table)) ∧
    (∀ tbl2 id2 uid2 role2 delOk2,
      tbl2.filter (fun x => x.id == id2) = ([] : List CommentRow) →
      deleteComment tbl2 id2 uid2 role2 delOk2 = (false, tbl2)) := by
  refine ⟨?_, ?_, ?_⟩
  · intro hadmin
    simp only [deleteComment, hfind]
    have hcond : (userRole != "admin" && c.user_id != userId) = false := by
      simp [hadmin]
    rw [hcond]
    simp
  · intro hrole howner delOk
    simp only [deleteComment, hfind]
    have hcond : (userRole != "admin" && c.user_id != userId) = true := by
      simp [hrole, howner]
    rw [hcond]
    simp
  · intro tbl2 id2 uid2 role2 delOk2 hnone
    simp only [deleteComment, hnone]

/-- Witness for C7 with an admin deleting a comment owned by another user. -/
theorem deleteComment_authorization_witness :
    (([⟨"c1", "u1"⟩] : List CommentRow).filter (fun x => x.id == "c1") =
      [⟨"c1", "u1"⟩]) ∧
    ((("admin" : String) = "admin" →
        (deleteComment [⟨"c1", "u1"⟩] "c1" "u2" "admin" true).fst = true) ∧
     (("admin" : String) ≠ "admin" → ("u1" : String) ≠ "u2" → ∀ delOk,
        deleteComment [⟨"c1", "u1"⟩] "c1" "u2" "admin" delOk =
          (false, [⟨"c1", "u1"⟩])) ∧
     (∀ tbl2 id2 uid2 role2 delOk2,
        tbl2.filter (fun x => x.id == id2) = ([] : List CommentRow) →
        deleteComment tbl2 id2 uid2 role2 delOk2 = (false, tbl2))) :=
  ⟨by decide,
    deleteComment_authorization [⟨"c1", "u1"⟩] "c1" "u2" "admin" ⟨"c1", "u1"⟩
      (by decide)⟩

/-- C8: two login requests that pass validation and fail, one because no
user bears the email, the other because the stored hash does not match,
produce identical replies: the same 401 status with the invalid-email-or-
password body, so an observer cannot tell no-such-user from wrong-password. -/
theorem login_uniform_failure (bc : String → String → Bool)
    (tok : String → String → String → String)
    (email1 password1 email2 password2 : String) (u : UserRow)
    (h1 : validateLogin email1 password1 = none)
    (h2 : validateLogin email2 password2 = none)
    (hbc : bc password2 u.password = false) :
    loginPOST bc tok email1 password1 StoreReply.notFound =
      { status := 401, body := AuthBody.failure "Invalid email or password" } ∧
    loginPOST bc tok email2 password2 (StoreReply.found u) =
      { status := 401, body := AuthBody.failure "Invalid email or password" } ∧
    loginPOST bc tok email1 password1 StoreReply.notFound =
      loginPOST bc tok email2 password2 (StoreReply.found u) := by
  have hA : loginPOST bc tok email1 password1 StoreReply.notFound =
      { status := 401, body := AuthBody.failure "Invalid email or password" } := by
    simp only [loginPOST, h1]
  have hB : loginPOST bc tok email2 password2 (StoreReply.found u) =
      { status := 401, body := AuthBody.failure "Invalid email or password" } := by
    simp only [loginPOST, h2, hbc]
    simp
  exact ⟨hA, hB, hA.trans hB.symm⟩

/-- Witness for C8 with concrete requests, a concrete stored user, and a
bcrypt comparison rejecting the password. -/
theorem login_uniform_failure_witness :
    validateLogin "a@b.c" "secret" = none ∧
    validateLogin "x@y.z" "hunter2" = none ∧
    ((fun _ _ : String => false) "hunter2"
      (UserRow.mk "1" "N" "x@y.z" "hash" "reader").password = false) ∧
    (loginPOST (fun _ _ => false) (fun _ _ _ => "t") "a@b.c" "secret"
        StoreReply.notFound =
      { status := 401, body := AuthBody.failure "Invalid email or password" } ∧
    loginPOST (fun _ _ => false) (fun _ _ _ => "t") "x@y.z" "hunter2"
        (StoreReply.found (UserRow.mk "1" "N" "x@y.z" "hash" "reader")) =
      { status := 401, body := AuthBody.failure "Invalid email or password" } ∧
    loginPOST (fun _ _ => false) (fun _ _ _ => "t") "a@b.c" "secret"
        StoreReply.notFound =
      loginPOST (fun _ _ => false) (fun _ _ _ => "t") "x@y.z" "hunter2"
        (StoreReply.found (UserRow.mk "1" "N" "x@y.z" "hash" "reader"))) :=
  ⟨by decide, by decide, rfl,
    login_uniform_failure (fun _ _ => false) (fun _ _ _ => "t") "a@b.c"
      "secret" "x@y.z" "hunter2" (UserRow.mk "1" "N" "x@y.z" "hash" "reader")
      (by decide) (by decide) rfl⟩

/-- C10 (amended): a registration request passing validation whose role is
absent or falsy (the empty string) inserts the user with role reader;
validateRegistration accepts an absent role; and it rejects every non-empty
role outside the set of admin, author and reader.  An empty-string role is
outside the set yet accepted, because the check is guarded by JavaScript
truthiness; it then defaults to reader on insert (see the counterexample). -/
theorem register_default_role (hash : String → String)
    (name email password : String) (role : Option String)
    (hrole : role = none ∨ role = some "")
    (hv : validateRegistration name email password role = none) :
    registerPOST hash false true name email password role =
      RegisterReply.created
        { name := name, email := email, password := hash password,
          role := "reader",
          avatar_url :=
            "https://api.dicebear.com/7.x/avataaars/svg?seed=" ++ email } ∧
    (∀ r, r ≠ "" → r ∉ (["admin", "author", "reader"] : List String) →
      validateRegistration name email password (some r) ≠ none) := by
  constructor
  · have htr : optTruthy role = false := by
      rcases hrole with rfl | rfl <;> simp [optTruthy]
    simp only [registerPOST, hv, htr]
    simp
  · intro r hrne hrnotin
    have hcont : (["admin", "author", "reader"] : List String).contains r =
        false := by
      cases hb : (["admin", "author", "reader"] : List String).contains r
      · rfl
      · exact absurd (List.elem_iff.mp hb) hrnotin
    have hD : (optTruthy (some r) &&
        !((["admin", "author", "reader"] : List String).contains
          ((some r).getD ""))) = true := by
      show (optTruthy (some r) &&
        !((["admin", "author", "reader"] : List String).contains r)) = true
      rw [hcont]
      simp [optTruthy, hrne]
    simp only [validateRegistration]
    split_ifs <;> try simp
    rcases hpw : isValidPassword password with _ | e
    · simp only [hpw, hD]
      simp
    · simp [hpw]

/-- Witness for C10's amended theorem: a valid registration with no role
field creates a reader. -/
theorem register_default_role_witness :
    ((none : Option String) = none ∨ (none : Option String) = some "") ∧
    validateRegistration "Alice" "a@b.c" "secret1" none = none ∧
    (registerPOST id false true "Alice" "a@b.c" "secret1" none =
      RegisterReply.created
        { name := "Alice", email := "a@b.c", password := id "secret1",
          role := "reader",
          avatar_url :=
            "https://api.dicebear.com/7.x/avataaars/svg?seed=" ++ "a@b.c" } ∧
    (∀ r, r ≠ "" → r ∉ (["admin", "author", "reader"] : List String) →
      validateRegistration "Alice" "a@b.c" "secret1" (some r) ≠ none)) :=
  ⟨Or.inl rfl, by decide,
    register_default_role id "Alice" "a@b.c" "secret1" none (Or.inl rfl)
      (by decide)⟩

/-- C10 counterexample: the empty-string role is outside the set of admin,
author and reader, yet validateRegistration accepts it, because the role
check is guarded by JavaScript truthiness (role && !includes(role)). -/
theorem register_empty_role_counterexample :
    validateRegistration "Alice" "a@b.c" "secret1" (some "") = none ∧
    ("" : String) ≠ "admin" ∧ ("" : String) ≠ "author" ∧
    ("" : String) ≠ "reader" := by
  decide

end BlogDash
